import Mathlib

/-!
Verification development for the `dinoe` agent core (Rust), shallowly embedded
in Lean 4.  The embedding follows `core/src/agent/loop_.rs`,
`core/src/agent/registry.rs`, `core/src/agent/context.rs` and
`core/src/traits/{provider,tool}.rs`.

External library calls of the source (md5 hashing, serde_json parsing and
printing, the provider HTTP client, the filesystem and the clock) are modelled
as explicit oracle parameters, since the algorithms under verification only
interact with them through their results.  Rust `String` text is modelled by
Lean `String`; byte-index string operations of the source are modelled on
character lists (all source tags and separators are ASCII, so positions agree).
-/

namespace Dinoe

/-- Rust `str::trim` (left part): drop leading whitespace. -/
def trimLeftList (l : List Char) : List Char := l.dropWhile Char.isWhitespace

/-- Rust `str::trim` (right part): drop trailing whitespace. -/
def trimRightList (l : List Char) : List Char := (l.reverse.dropWhile Char.isWhitespace).reverse

/-- Rust `str::trim` on character lists. -/
def trimList (l : List Char) : List Char := trimRightList (trimLeftList l)

/-- Rust `str::trim` on strings. -/
def rustTrim (s : String) : String := (trimList s.toList).asString

/-- Rust `str::to_uppercase` (the roles fed to it are ASCII). -/
def rustUpper (s : String) : String := (s.toList.map Char.toUpper).asString

/-- Rust `str.chars().count()`. -/
def charsCount (s : String) : Nat := s.toList.length

/-- Rust `chars().take(n).collect::<String>()`. -/
def charsTake (n : Nat) (s : String) : String := (s.toList.take n).asString

/-- `Vec::join` / `slice::join` with a separator, as in the source. -/
def joinSep (sep : String) : List String → String
  | [] => ""
  | [x] => x
  | x :: y :: rest => x ++ sep ++ joinSep sep (y :: rest)

/-- A minimal JSON value model standing for `serde_json::Value`. -/
inductive Json where
  | null : Json
  | bool (b : Bool) : Json
  | num (n : Int) : Json
  | str (s : String) : Json
  | arr (elems : List Json) : Json
  | obj (fields : List (String × Json)) : Json

/-- `serde_json::Value::get(key)` for objects. -/
def Json.get (v : Json) (key : String) : Option Json :=
  match v with
  | Json.obj fields => (fields.find? (fun p => p.1 == key)).map (fun p => p.2)
  | _ => none

/-- `serde_json::Value::as_str()`. -/
def Json.asStr (v : Json) : Option String :=
  match v with
  | Json.str s => some s
  | _ => none

/-- `traits/provider.rs` `ToolCall`. -/
structure ToolCall where
  id : String
  name : String
  arguments : String
deriving DecidableEq

/-- `traits/tool.rs` `ToolResult`. -/
structure ToolResult where
  success : Bool
  output : String
  error : Option String
deriving DecidableEq

/-- `ToolResult::success` constructor of the source (renamed: `success` is a field). -/
def ToolResult.mkSuccess (output : String) : ToolResult := ⟨true, output, none⟩

/-- `ToolResult::error` constructor of the source (renamed: `error` is a field). -/
def ToolResult.mkError (e : String) : ToolResult := ⟨false, "", some e⟩

/-- `traits/tool.rs` `ToolSpec`. -/
structure ToolSpec where
  name : String
  description : String
  parameters_schema : Json

/-- A `dyn Tool`: its name, description, schema, and async `execute`, whose
`anyhow::Result` is modelled by `Except String`. -/
structure Tool where
  name : String
  description : String
  parameters_schema : Json
  execute : Json → Except String ToolResult

/-- `Tool::spec`. -/
def Tool.spec (t : Tool) : ToolSpec := ⟨t.name, t.description, t.parameters_schema⟩

/-- `traits/provider.rs` `ChatMessage`. -/
structure ChatMessage where
  role : String
  content : String
  tool_calls : Option (List ToolCall)
  tool_call_id : Option String
deriving DecidableEq

/-- `ChatMessage::system`. -/
def ChatMessage.system (content : String) : ChatMessage := ⟨"system", content, none, none⟩

/-- `ChatMessage::user`. -/
def ChatMessage.user (content : String) : ChatMessage := ⟨"user", content, none, none⟩

/-- `ChatMessage::assistant`. -/
def ChatMessage.assistant (content : String) : ChatMessage := ⟨"assistant", content, none, none⟩

/-- `ChatMessage::assistant_with_tool_calls`. -/
def ChatMessage.assistant_with_tool_calls (content : String) (tcs : List ToolCall) : ChatMessage :=
  ⟨"assistant", content, some tcs, none⟩

/-- `ChatMessage::tool_result`. -/
def ChatMessage.tool_result (tool_call_id : String) (content : String) : ChatMessage :=
  ⟨"tool", content, none, some tool_call_id⟩

/-- `traits/provider.rs` `ChatResponse`. -/
structure ChatResponse where
  text : Option String
  tool_calls : List ToolCall
deriving DecidableEq

/-- `ChatResponse::has_tool_calls`. -/
def ChatResponse.has_tool_calls (r : ChatResponse) : Bool := !r.tool_calls.isEmpty

/-- `skills::Skill`, restricted to the fields the context builder reads. -/
structure Skill where
  name : String
  description : String
  location : Option String

/-! ## Constants of `loop_.rs` and `context.rs` -/

def DEFAULT_MAX_HISTORY : Nat := 50

def COMPACT_KEEP_RECENT : Nat := 20

def COMPACTION_MAX_SOURCE_CHARS : Nat := 12000

def COMPACTION_MAX_SUMMARY_CHARS : Nat := 2000

def LOOP_DETECTION_WINDOW : Nat := 5

def LOOP_DETECTION_THRESHOLD : Nat := 3

def BOOTSTRAP_MAX_CHARS : Nat := 20000

/-! ## Loop detection (`loop_.rs` lines 26-40 and 124-160)

The source computes `args_hash` as the md5 hex digest of the argument string;
md5 enters the algorithm only through equality of digests, so the digest
function is an explicit parameter `hash` here. -/

/-- `ToolCallSignature`. -/
structure ToolCallSignature where
  name : String
  args_hash : String
deriving DecidableEq

/-- `ToolCallSignature::from_tool_call`, with the md5 hex digest as parameter. -/
def ToolCallSignature.from_tool_call (hash : String → String) (tc : ToolCall) : ToolCallSignature :=
  ⟨tc.name, hash tc.arguments⟩

/-- The loop-detected failure message built in `detect_tool_loop`. -/
def loopMessage (name : String) (count : Nat) : String :=
  "Tool loop detected: \x27" ++ name ++ "\x27 called " ++ toString count ++
    " times with same arguments. The model may be stuck. Try rephrasing your request or using a larger model."

/-- The window update of `detect_tool_loop`: push one signature, pop the front
when the window exceeds `LOOP_DETECTION_WINDOW`. -/
def pushSignature (window : List ToolCallSignature) (sig : ToolCallSignature) :
    List ToolCallSignature :=
  let w := window ++ [sig]
  if LOOP_DETECTION_WINDOW < w.length then w.drop 1 else w

/-- The first `for` of `detect_tool_loop`: push every new call's signature. -/
def pushSignatures (hash : String → String) (window : List ToolCallSignature)
    (calls : List ToolCall) : List ToolCallSignature :=
  calls.foldl (fun w tc => pushSignature w (ToolCallSignature.from_tool_call hash tc)) window

/-- The second `for` of `detect_tool_loop`: scan the window for
`LOOP_DETECTION_THRESHOLD` consecutive equal signatures, carrying the previous
signature and the current consecutive count. -/
def scanForLoop : List ToolCallSignature → Option ToolCallSignature → Nat → Option String
  | [], _, _ => none
  | sig :: rest, last, count =>
    match last with
    | some prev =>
      if sig = prev then
        if LOOP_DETECTION_THRESHOLD ≤ count + 1 then some (loopMessage sig.name (count + 1))
        else scanForLoop rest (some sig) (count + 1)
      else scanForLoop rest (some sig) 1
    | none => scanForLoop rest (some sig) count

/-- `AgentLoop::detect_tool_loop`: returns the updated window together with the
failure message, when one is detected. -/
def detect_tool_loop (hash : String → String) (window : List ToolCallSignature)
    (calls : List ToolCall) : List ToolCallSignature × Option String :=
  let w := pushSignatures hash window calls
  (w, scanForLoop w none 1)

/-! ## Tool registry (`registry.rs`)

The source registry is a mutex-protected `HashMap<String, Arc<dyn Tool>>`; it is
modelled as an association list with at most the `HashMap` insert semantics:
`register` replaces the binding of an existing name in place, otherwise appends. -/

abbrev ToolRegistry := List (String × Tool)

/-- `ToolRegistry::register` (`tools.insert(name, tool)`). -/
def ToolRegistry.register (reg : ToolRegistry) (t : Tool) : ToolRegistry :=
  if reg.any (fun p => p.1 == t.name) then
    reg.map (fun p => if p.1 == t.name then (p.1, t) else p)
  else
    reg ++ [(t.name, t)]

/-- `ToolRegistry::get`. -/
def ToolRegistry.get (reg : ToolRegistry) (name : String) : Option Tool :=
  (reg.find? (fun p => p.1 == name)).map (fun p => p.2)

/-- `ToolRegistry::get_specs`. -/
def ToolRegistry.get_specs (reg : ToolRegistry) : List ToolSpec :=
  reg.map (fun p => p.2.spec)

/-- `ToolRegistry::execute`: total, converting the two failure shapes into
`ToolResult` failures. -/
def ToolRegistry.execute (reg : ToolRegistry) (name : String) (args : Json) : ToolResult :=
  match ToolRegistry.get reg name with
  | some tool =>
    match tool.execute args with
    | Except.ok result => result
    | Except.error e => ToolResult.mkError ("Execution failed: " ++ e)
  | none => ToolResult.mkError ("Tool \x27" ++ name ++ "\x27 not found")

/-! ## Fallback tag parser (`loop_.rs` lines 20-21 and 465-571) -/

def TOOL_CALL_OPEN_TAGS : List String := ["<function=", "<tool_call", "<invoke"]

def TOOL_CALL_CLOSE_TAGS : List String := ["</function>", "</tool_call", "</invoke>"]

/-- Rust `str::find(substring)`: index of the first occurrence. -/
def findSubstrIdx (needle : List Char) : List Char → Option Nat
  | [] => match needle.isEmpty with
    | true => some 0
    | false => none
  | c :: t =>
    match needle.isPrefixOf (c :: t) with
    | true => some 0
    | false => (findSubstrIdx needle t).map (· + 1)

/-- `AgentLoop::find_first_tag`: earliest occurrence of any tag; on equal
indices the first tag in the list wins (Rust `min_by_key` keeps the first
minimum). -/
def find_first_tag (text : List Char) (tags : List String) : Option (Nat × String) :=
  (tags.filterMap (fun tag => (findSubstrIdx tag.toList text).map (fun i => (i, tag)))).foldl
    (fun best cand =>
      match best with
      | none => some cand
      | some b => if cand.1 < b.1 then some cand else some b)
    none

/-- `AgentLoop::matching_tool_call_close_tag`. -/
def matching_tool_call_close_tag (open_tag : String) : Option String :=
  (TOOL_CALL_OPEN_TAGS.findIdx? (fun t => t == open_tag)).bind
    (fun i => TOOL_CALL_CLOSE_TAGS[i]?)

/-- Scanner state of `extract_json_values`. -/
structure JsonScanState where
  depth : Int
  start : Option Nat
  in_string : Bool
  escape_next : Bool

/-- The `char_indices` loop of `AgentLoop::extract_json_values`, mirroring the
match arms of the source in order.  `jsonParse` stands for
`serde_json::from_str`; only successfully parsed balanced slices are kept. -/
def extract_json_values_loop (jsonParse : String → Except String Json) (full : List Char) :
    List Char → Nat → JsonScanState → List Json → List Json
  | [], _, _, acc => acc
  | c :: rest, i, st, acc =>
    if c == '\x7b' && !st.in_string then
      extract_json_values_loop jsonParse full rest (i + 1)
        ⟨st.depth + 1, if st.depth == 0 then some i else st.start, st.in_string, st.escape_next⟩ acc
    else if c == '\x7d' && !st.in_string then
      let d := st.depth - 1
      if d == 0 then
        let acc' :=
          match st.start with
          | some s =>
            match jsonParse (((full.drop s).take (i - s + 1)).asString) with
            | Except.ok v => acc ++ [v]
            | Except.error _ => acc
          | none => acc
        extract_json_values_loop jsonParse full rest (i + 1) ⟨d, none, st.in_string, st.escape_next⟩ acc'
      else
        extract_json_values_loop jsonParse full rest (i + 1) ⟨d, st.start, st.in_string, st.escape_next⟩ acc
    else if c == '"' && !st.escape_next then
      extract_json_values_loop jsonParse full rest (i + 1) ⟨st.depth, st.start, !st.in_string, st.escape_next⟩ acc
    else if c == '\\' && st.in_string then
      extract_json_values_loop jsonParse full rest (i + 1) ⟨st.depth, st.start, st.in_string, true⟩ acc
    else
      extract_json_values_loop jsonParse full rest (i + 1) ⟨st.depth, st.start, st.in_string, false⟩ acc

/-- `AgentLoop::extract_json_values`. -/
def extract_json_values (jsonParse : String → Except String Json) (text : List Char) : List Json :=
  extract_json_values_loop jsonParse text text 0 ⟨0, none, false, false⟩ []

/-- `AgentLoop::parse_tool_call_value`: interpret a JSON value as
`{name, arguments}`; the id is `call_` followed by the md5 hex digest of the
serialized arguments (`hash`), and `jsonToString` stands for
`serde_json::to_string` (total on `serde_json::Value`). -/
def parse_tool_call_value (hash : String → String) (jsonToString : Json → String)
    (v : Json) : Option ToolCall :=
  match (v.get "name").bind Json.asStr with
  | none => none
  | some name =>
    match v.get "arguments" with
    | none => none
    | some args =>
      let argsStr := jsonToString args
      some ⟨"call_" ++ hash argsStr, name, argsStr⟩

/-- The `while let` loop of `AgentLoop::parse_tool_calls_fallback`.  The fuel
argument makes the recursion structural; the wrapper passes `length + 1`, which
the loop can never exhaust because every successful iteration consumes at least
the open tag from `remaining`.  Returns the collected text parts, the collected
calls, and the final `remaining`. -/
def parse_fallback_loop (hash : String → String) (jsonParse : String → Except String Json)
    (jsonToString : Json → String) :
    Nat → List Char → List (List Char) → List ToolCall →
    List (List Char) × List ToolCall × List Char
  | 0, remaining, parts, calls => (parts, calls, remaining)
  | fuel + 1, remaining, parts, calls =>
    match find_first_tag remaining TOOL_CALL_OPEN_TAGS with
    | none => (parts, calls, remaining)
    | some (start, open_tag) =>
      let before := remaining.take start
      let parts' := if trimList before = [] then parts else parts ++ [trimList before]
      match matching_tool_call_close_tag open_tag with
      | none => (parts', calls, remaining)
      | some close_tag =>
        let after_open := remaining.drop (start + open_tag.toList.length)
        match findSubstrIdx close_tag.toList after_open with
        | none => (parts', calls, remaining)
        | some close_idx =>
          let inner := after_open.take close_idx
          let values := extract_json_values jsonParse inner
          let newCalls := values.filterMap (parse_tool_call_value hash jsonToString)
          parse_fallback_loop hash jsonParse jsonToString fuel
            (after_open.drop (close_idx + close_tag.toList.length)) parts' (calls ++ newCalls)

/-- `AgentLoop::parse_tool_calls_fallback`. -/
def parse_tool_calls_fallback (hash : String → String) (jsonParse : String → Except String Json)
    (jsonToString : Json → String) (response : String) : String × List ToolCall :=
  let r := parse_fallback_loop hash jsonParse jsonToString
    (response.toList.length + 1) response.toList [] []
  let parts := if trimList r.2.2 = [] then r.1 else r.1 ++ [trimList r.2.2]
  (joinSep "\n" (parts.map List.asString), r.2.1)

/-! ## Context builder (`context.rs`)

`std::fs::read_to_string` is modelled by a `readFile` oracle; `chrono` by a
`now` string; the memory collaborator (`get_memory_context`, an external recall
over a trait object) by a `memoryContext` oracle from the user message to the
optional rendered section. -/

def BOOTSTRAP_FILES : List (String × String) :=
  [("SOUL.md", "## Agent Identity (SOUL.md)"),
   ("TOOLS.md", "## Local Tool Notes (TOOLS.md)"),
   ("USER.md", "## User Context (USER.md)")]

/-- The trailing overflow notice appended by `load_bootstrap_files`
(`format!` renders `BOOTSTRAP_MAX_CHARS` as `20000`). -/
def bootstrapOverflowNotice : String :=
  "\n\n[... truncated at 20000 chars — use file_read for full content]\n"

/-- The per-file body chosen by `load_bootstrap_files` from the trimmed
content: truncated at `BOOTSTRAP_MAX_CHARS` characters with the overflow
notice, or the trimmed content itself. -/
def bootstrapBody (trimmed : String) : String :=
  if BOOTSTRAP_MAX_CHARS < charsCount trimmed then
    charsTake BOOTSTRAP_MAX_CHARS trimmed ++ bootstrapOverflowNotice
  else trimmed

/-- The section `load_bootstrap_files` emits for one bootstrap file, when the
file reads successfully and trims non-empty. -/
def bootstrapPart (readFile : String → Option String) (entry : String × String) :
    Option String :=
  match readFile entry.1 with
  | none => none
  | some content =>
    let trimmed := rustTrim content
    if trimmed = "" then none
    else some (entry.2 ++ "\n\n" ++ bootstrapBody trimmed)

/-- `ContextBuilder::load_bootstrap_files`. -/
def load_bootstrap_files (readFile : String → Option String) : Option String :=
  let parts := BOOTSTRAP_FILES.filterMap (bootstrapPart readFile)
  if parts = [] then none else some (joinSep "\n\n---\n\n" parts)

/-- The fixed protocol text of `get_tool_instructions` before the per-tool
entries. -/
def toolProtocolText : String :=
  "## Tool Use Protocol\n\n" ++
  "To use a tool, wrap a JSON object in <tool_call> tags:\n\n" ++
  "```\n<tool_call>\n\x7b\"name\": \"tool_name\", \"arguments\": \x7b\"param\": \"value\"\x7d\x7d\n</tool_call>\n```\n\n" ++
  "CRITICAL: Output actual <tool_call> tags—never describe steps or give examples.\n\n" ++
  "Example: User says \"what\x27s the date?\". You MUST respond with:\n<tool_call>\n\x7b\"name\":\"shell\",\"arguments\":\x7b\"command\":\"date\"\x7d\x7d\n</tool_call>\n\n" ++
  "You may use multiple tool calls in a single response. " ++
  "After tool execution, results appear in <tool_result> tags. " ++
  "Continue reasoning with the results until you can give a final answer.\n\n" ++
  "### Available Tools\n\n"

/-- `ContextBuilder::get_tool_instructions`. -/
def get_tool_instructions (jsonToString : Json → String) (tool_specs : List ToolSpec) : String :=
  if tool_specs.isEmpty then ""
  else
    toolProtocolText ++ String.join (tool_specs.map (fun t =>
      "**" ++ t.name ++ "**: " ++ t.description ++ "\nParameters: `" ++
        jsonToString t.parameters_schema ++ "`\n\n"))

/-- `ContextBuilder::get_runtime_context`, with the `chrono` timestamp and the
workspace display string as parameters. -/
def get_runtime_context (now workspace : String) : String :=
  "## Runtime Context\n\n### Current Time\n" ++ now ++ "\n\n### Workspace\n" ++ workspace

/-- `ContextBuilder::get_skills_context` (the default location joins path
segments with `/`). -/
def get_skills_context (workspace : String) (skills : List Skill) : Option String :=
  if skills.isEmpty then none
  else
    let parts :=
      ["## Available Skills\n\n<available_skills>"] ++
      skills.map (fun sk =>
        let location := sk.location.getD (workspace ++ "/skills/" ++ sk.name ++ "/SKILL.md")
        "  <skill>\n    <name>" ++ sk.name ++ "</name>\n    <description>" ++ sk.description ++
          "</description>\n    <location>" ++ location ++ "</location>\n  </skill>") ++
      ["</available_skills>"]
    some (joinSep "\n" parts)

/-- The external collaborators and ambient inputs of `ContextBuilder`. -/
structure PromptEnv where
  workspace : String
  readFile : String → Option String
  tool_specs : List ToolSpec
  jsonToString : Json → String
  now : String
  skills : List Skill
  memoryContext : String → Option String

/-- `ContextBuilder::build_system_prompt`: the optional bootstrap section, the
(unconditionally pushed) tool instructions, the runtime context, and the
optional skills and memory sections, joined by the fixed separator. -/
def build_system_prompt (env : PromptEnv) (user_message : String) : String :=
  let parts :=
    (match load_bootstrap_files env.readFile with
     | some b => [b]
     | none => []) ++
    [get_tool_instructions env.jsonToString env.tool_specs,
     get_runtime_context env.now env.workspace] ++
    (match get_skills_context env.workspace env.skills with
     | some s => [s]
     | none => []) ++
    (match env.memoryContext user_message with
     | some m => [m]
     | none => [])
  joinSep "\n\n---\n\n" parts

/-- `ContextBuilder::build_messages`. -/
def build_messages (env : PromptEnv) (history : List ChatMessage) (current_message : String) :
    List ChatMessage :=
  ChatMessage.system (build_system_prompt env current_message) ::
    (history ++ [ChatMessage.user current_message])

/-! ## History compaction (`loop_.rs` lines 369-463) -/

/-- `messages.first().is_some_and(|m| m.role == "system")`. -/
def hasLeadingSystem (messages : List ChatMessage) : Bool :=
  match messages with
  | [] => false
  | m :: _ => m.role == "system"

/-- The `start` offset used by `compact_history`. -/
def systemStart (messages : List ChatMessage) : Nat :=
  if hasLeadingSystem messages then 1 else 0

/-- The `non_system_count` computed in `should_compact_history` and
`compact_history` (`saturating_sub`). -/
def nonSystemCount (messages : List ChatMessage) : Nat :=
  messages.length - systemStart messages

/-- `AgentLoop::should_compact_history`. -/
def should_compact_history (max_history : Nat) (messages : List ChatMessage) : Bool :=
  max_history < nonSystemCount messages

/-- `AgentLoop::truncate_transcript`. -/
def truncate_transcript (text : String) : String :=
  if charsCount text ≤ COMPACTION_MAX_SUMMARY_CHARS then text
  else charsTake COMPACTION_MAX_SUMMARY_CHARS text ++ "..."

/-- `AgentLoop::build_transcript`. -/
def build_transcript (messages : List ChatMessage) : String :=
  let transcript :=
    String.join (messages.map (fun m => rustUpper m.role ++ ": " ++ rustTrim m.content ++ "\n"))
  if COMPACTION_MAX_SOURCE_CHARS < charsCount transcript then truncate_transcript transcript
  else transcript

/-- The summary `compact_history` ends up with: `AgentLoop::summarize` asks the
provider (modelled by the `chatSummarize` oracle; `none` covers both a provider
error, caught in `compact_history`, and a response without text, covered by
`unwrap_or_else` in `summarize`) and both failure paths fall back to
`truncate_transcript` of the transcript. -/
def summarizeResult (chatSummarize : String → Option String) (transcript : String) : String :=
  match chatSummarize transcript with
  | some s => s
  | none => truncate_transcript transcript

/-- `AgentLoop::compact_history`: replace the older run with a single
`[Conversation summary]` assistant message via `splice`. -/
def compact_history (chatSummarize : String → Option String) (messages : List ChatMessage) :
    List ChatMessage :=
  let start := systemStart messages
  let non_system_count := nonSystemCount messages
  let keep_recent := min COMPACT_KEEP_RECENT non_system_count
  let compact_count := non_system_count - keep_recent
  if compact_count = 0 then messages
  else
    let compact_end := start + compact_count
    let to_compact := (messages.drop start).take compact_count
    let transcript := build_transcript to_compact
    let summary := summarizeResult chatSummarize transcript
    let summary_msg := ChatMessage.assistant ("[Conversation summary]\n" ++ rustTrim summary)
    messages.take start ++ [summary_msg] ++ messages.drop compact_end

/-- Step 7 of the turn: compaction exactly when the threshold is exceeded
(`if self.should_compact_history(..) { self.compact_history(..) }`). -/
def maybe_compact (chatSummarize : String → Option String) (max_history : Nat)
    (messages : List ChatMessage) : List ChatMessage :=
  if should_compact_history max_history messages then compact_history chatSummarize messages
  else messages

/-! ## The non-streaming turn loop (`AgentLoop::process_with_history`)

The provider is an external collaborator; its per-iteration outcome is an
oracle `chat : Nat → Except String ChatResponse` indexed by the iteration
counter (the source passes the current message list, whose effect on the
provider is absorbed into the oracle).  `jsonParse` models
`serde_json::from_str` on tool-call arguments (with the serde error message),
`toolResultToString` models `serde_json::to_string(&result).unwrap_or_default()`.
The detached `store_message` background writes and the terminal printing have
no effect on the conversation state or the returned value and are omitted. -/

structure LoopEnv where
  hash : String → String
  jsonParse : String → Except String Json
  jsonToString : Json → String
  toolResultToString : ToolResult → String
  chat : Nat → Except String ChatResponse
  chatSummarize : String → Option String

structure AgentConfig where
  max_iterations : Nat
  max_history : Nat
  registry : ToolRegistry

/-- Response interpretation (`loop_.rs` lines 307-317): structured tool calls
win; otherwise the fallback parser runs on the text; a response with neither
yields `none` (the `return Ok("No response from provider")` branch). -/
def interpret_response (env : LoopEnv) (r : ChatResponse) : Option (String × List ToolCall) :=
  if r.has_tool_calls then some (r.text.getD "", r.tool_calls)
  else
    match r.text with
    | some t => some (parse_tool_calls_fallback env.hash env.jsonParse env.jsonToString t)
    | none => none

/-- The tool-dispatch `for` loop (`loop_.rs` lines 343-359): parse each call's
arguments (a parse failure aborts the whole call), execute through the
registry, and append a `tool` message with the serialized result. -/
def exec_tool_calls (env : LoopEnv) (reg : ToolRegistry) :
    List ToolCall → List ChatMessage → Except String (List ChatMessage)
  | [], messages => Except.ok messages
  | tc :: rest, messages =>
    match env.jsonParse tc.arguments with
    | Except.error e =>
      Except.error ("Failed to parse tool arguments for " ++ tc.name ++ ": " ++ e)
    | Except.ok args =>
      let result := ToolRegistry.execute reg tc.name args
      exec_tool_calls env reg rest
        (messages ++ [ChatMessage.tool_result tc.id (env.toolResultToString result)])

/-- The `while iterations < max_iterations` loop of `process_with_history`;
`fuel` is the number of iterations still allowed and `iter` the 1-based index
of the next iteration. -/
def process_iter (env : LoopEnv) (cfg : AgentConfig) :
    Nat → Nat → List ChatMessage → List ToolCallSignature → Except String String
  | 0, _, _, _ => Except.ok "Max iterations reached"
  | fuel + 1, iter, messages, window =>
    match env.chat iter with
    | Except.error e => Except.error e
    | Except.ok response =>
      match interpret_response env response with
      | none => Except.ok "No response from provider"
      | some (assistant_text, tool_calls) =>
        if tool_calls.isEmpty then
          if assistant_text = "" then Except.error "Empty response from model. Please try again."
          else Except.ok assistant_text
        else
          match detect_tool_loop env.hash window tool_calls with
          | (_, some loop_msg) => Except.error loop_msg
          | (window', none) =>
            let messages1 :=
              messages ++ [ChatMessage.assistant_with_tool_calls assistant_text tool_calls]
            match exec_tool_calls env cfg.registry tool_calls messages1 with
            | Except.error e => Except.error e
            | Except.ok messages2 =>
              process_iter env cfg fuel (iter + 1)
                (maybe_compact env.chatSummarize cfg.max_history messages2) window'

/-- `AgentLoop::process_with_history` from an already-built message list. -/
def process_from (env : LoopEnv) (cfg : AgentConfig) (messages0 : List ChatMessage) :
    Except String String :=
  process_iter env cfg cfg.max_iterations 1 messages0 []

/-- `AgentLoop::process_with_history`. -/
def process_with_history (penv : PromptEnv) (env : LoopEnv) (cfg : AgentConfig)
    (message : String) (history : List ChatMessage) : Except String String :=
  process_from env cfg (build_messages penv history message)

/-! ## Streaming thinking-only terminal branch (`loop_.rs` lines 226-241)

Rust `&thinking_content[..200]` byte-slices the accumulated thinking string and
panics when byte 200 is not a character boundary; the panic is modelled by
`none`. -/

/-- Rust `char::len_utf8`. -/
def charUtf8Size (c : Char) : Nat :=
  if c.toNat < 128 then 1 else if c.toNat < 2048 then 2 else if c.toNat < 65536 then 3 else 4

/-- Rust `str::len`: the UTF-8 byte length. -/
def utf8Len (s : String) : Nat := (s.toList.map charUtf8Size).sum

/-- Rust `&s[..n]` on character lists: `some` of the characters occupying the
first `n` bytes when `n` is a character boundary within the string, `none`
(panic) otherwise. -/
def byteTakeList : List Char → Nat → Option (List Char)
  | _, 0 => some []
  | [], _ => none
  | c :: cs, n =>
    if charUtf8Size c ≤ n then (byteTakeList cs (n - charUtf8Size c)).map (fun t => c :: t)
    else none

/-- Rust `&s[..n]` on strings. -/
def byteSliceTo (s : String) (n : Nat) : Option String :=
  (byteTakeList s.toList n).map List.asString

/-- The thinking preview chosen in the streaming thinking-only branch:
`if thinking_content.len() > 200 { &thinking_content[..200] } else { &thinking_content }`. -/
def thinking_preview (thinking : String) : Option String :=
  if 200 < utf8Len thinking then byteSliceTo thinking 200 else some thinking

/-- The incomplete-response message returned by the streaming thinking-only
branch; `none` when the byte slice panics. -/
def incomplete_stream_response (thinking : String) : Option String :=
  (thinking_preview thinking).map (fun p =>
    "I was thinking: " ++ p ++ "... but didn\x27t complete my response. Please try again.")

/-! ## A leading-system-message invariant predicate -/

/-- The conversation-state invariant of the data model: a single leading
`system` message and no other `system` message. -/
def sysInvB (messages : List ChatMessage) : Bool :=
  match messages with
  | [] => false
  | m :: rest => m.role == "system" && rest.all (fun x => x.role != "system")

/-! ## Concrete collaborators used to instantiate the oracle parameters -/

def idHash : String → String := fun s => s

def noParse : String → Except String Json := fun _ => Except.error "expected value"

def okNullParse : String → Except String Json := fun _ => Except.ok Json.null

def constJsonToString : Json → String := fun _ => "null"

def constTrToString : ToolResult → String := fun _ => "\x7b\x7d"

def noSummarize : String → Option String := fun _ => none

def promptEnv0 : PromptEnv :=
  ⟨"/w", fun _ => none, [], constJsonToString, "2026-01-01 00:00 (Thursday)", [], fun _ => none⟩

def tcA : ToolCall := ⟨"id1", "shell", "args"⟩

def tcB : ToolCall := ⟨"id2", "browse", "args"⟩

def envNoResponse : LoopEnv :=
  ⟨idHash, noParse, constJsonToString, constTrToString, fun _ => Except.ok ⟨none, []⟩, noSummarize⟩

def envEmptyText : LoopEnv :=
  ⟨idHash, noParse, constJsonToString, constTrToString, fun _ => Except.ok ⟨some "", []⟩, noSummarize⟩

def envLoopThree : LoopEnv :=
  ⟨idHash, okNullParse, constJsonToString, constTrToString,
   fun _ => Except.ok ⟨some "", [tcA]⟩, noSummarize⟩

def envLoopTwoPlusDiff : LoopEnv :=
  ⟨idHash, okNullParse, constJsonToString, constTrToString,
   fun i => if i ≤ 2 then Except.ok ⟨some "", [tcA]⟩
            else if i == 3 then Except.ok ⟨some "", [tcB]⟩
            else Except.ok ⟨some "done", []⟩, noSummarize⟩

def envUnknownTool : LoopEnv :=
  ⟨idHash, okNullParse, constJsonToString, constTrToString,
   fun i => if i == 1 then Except.ok ⟨some "", [tcA]⟩ else Except.ok ⟨some "done", []⟩,
   noSummarize⟩

def toolW1 : Tool := ⟨"shell", "first", Json.null, fun _ => Except.ok (ToolResult.mkSuccess "one")⟩

def toolW2 : Tool := ⟨"shell", "second", Json.null, fun _ => Except.ok (ToolResult.mkSuccess "two")⟩

def toolFail : Tool := ⟨"f", "always fails", Json.null, fun _ => Except.error "boom"⟩

/-! ## Helper lemmas -/

theorem isPrefixOf_append_of_isPrefixOf (n : List Char) :
    ∀ (a b : List Char), n.isPrefixOf a = true → n.isPrefixOf (a ++ b) = true := by
  induction n with
  | nil => intro a b _; simp [List.isPrefixOf]
  | cons c n' ih =>
    intro a b h
    cases a with
    | nil => simp [List.isPrefixOf] at h
    | cons d a' =>
      simp only [List.cons_append, List.isPrefixOf] at h ⊢
      rcases Bool.and_eq_true_iff.mp h with ⟨h1, h2⟩
      exact Bool.and_eq_true_iff.mpr ⟨h1, ih a' b h2⟩

theorem isPrefixOf_self (l : List Char) : l.isPrefixOf l = true := by
  induction l with
  | nil => rfl
  | cons c t ih => simp [List.isPrefixOf, ih]

theorem findSubstrIdx_self_isSome (l : List Char) : (findSubstrIdx l l).isSome = true := by
  cases l with
  | nil => rfl
  | cons c t => simp [findSubstrIdx, isPrefixOf_self]

theorem findSubstrIdx_append_left (n : List Char) :
    ∀ (a b : List Char), (findSubstrIdx n a).isSome = true →
      (findSubstrIdx n (a ++ b)).isSome = true := by
  intro a
  induction a with
  | nil =>
    intro b h
    simp only [findSubstrIdx] at h
    cases hn : n.isEmpty with
    | true =>
      have : n = [] := by cases n <;> simp_all [List.isEmpty]
      subst this
      cases b with
      | nil => rfl
      | cons c t => simp [findSubstrIdx, List.isPrefixOf]
    | false => rw [hn] at h; simp at h
  | cons c a' ih =>
    intro b h
    simp only [findSubstrIdx] at h
    cases hp : n.isPrefixOf (c :: a') with
    | true =>
      have hq : n.isPrefixOf ((c :: a') ++ b) = true :=
        isPrefixOf_append_of_isPrefixOf n _ b hp
      simp only [List.cons_append] at hq ⊢
      simp [findSubstrIdx, hq]
    | false =>
      rw [hp] at h
      simp only [Option.isSome_map'] at h
      have h2 := ih b h
      simp only [List.cons_append, findSubstrIdx]
      cases hq : n.isPrefixOf (c :: (a' ++ b)) with
      | true => rfl
      | false => simp [Option.isSome_map', h2]

theorem findSubstrIdx_append_right (n : List Char) :
    ∀ (a b : List Char), (findSubstrIdx n b).isSome = true →
      (findSubstrIdx n (a ++ b)).isSome = true := by
  intro a
  induction a with
  | nil => intro b h; simpa using h
  | cons c a' ih =>
    intro b h
    have h2 := ih b h
    simp only [List.cons_append, findSubstrIdx]
    cases hq : n.isPrefixOf (c :: (a' ++ b)) with
    | true => rfl
    | false => simp [Option.isSome_map', h2]

theorem string_toList_append (s t : String) : (s ++ t).toList = s.toList ++ t.toList := rfl

theorem contains_joinSep_of_mem (sep : String) :
    ∀ (parts : List String) (p : String), p ∈ parts →
      (findSubstrIdx p.toList (joinSep sep parts).toList).isSome = true := by
  intro parts
  induction parts with
  | nil => intro p h; cases h
  | cons x rest ih =>
    intro p h
    rcases List.mem_cons.mp h with h1 | h2
    · subst h1
      cases rest with
      | nil => exact findSubstrIdx_self_isSome p.toList
      | cons y rest' =>
        show (findSubstrIdx p.toList (p ++ sep ++ joinSep sep (y :: rest')).toList).isSome = true
        rw [string_toList_append, string_toList_append]
        rw [List.append_assoc]
        exact findSubstrIdx_append_left _ _ _ (findSubstrIdx_self_isSome p.toList)
    · cases rest with
      | nil => cases h2
      | cons y rest' =>
        show (findSubstrIdx p.toList (x ++ sep ++ joinSep sep (y :: rest')).toList).isSome = true
        rw [string_toList_append, string_toList_append, List.append_assoc]
        refine findSubstrIdx_append_right _ _ _ (findSubstrIdx_append_right _ _ _ ?_)
        exact ih p h2

theorem asString_eq_empty_iff (l : List Char) : l.asString = "" ↔ l = [] := by
  constructor
  · intro h; have := congrArg String.toList h; simpa using this
  · intro h; subst h; rfl

theorem dropWhile_replicate_of_false (p : Char → Bool) (n : Nat) (c : Char) (h : p c = false) :
    (List.replicate n c).dropWhile p = List.replicate n c := by
  cases n with
  | zero => rfl
  | succ m => simp [List.replicate_succ, List.dropWhile_cons, h]

theorem trimList_replicate_of_false (n : Nat) (c : Char) (h : c.isWhitespace = false) :
    trimList (List.replicate n c) = List.replicate n c := by
  unfold trimList trimLeftList trimRightList
  rw [dropWhile_replicate_of_false _ _ _ h, List.reverse_replicate,
    dropWhile_replicate_of_false _ _ _ h, List.reverse_replicate]

theorem rustTrim_ne_empty_iff (t : String) : rustTrim t ≠ "" ↔ trimList t.toList ≠ [] := by
  unfold rustTrim
  constructor
  · intro h hl; exact h ((asString_eq_empty_iff _).mpr hl)
  · intro h hs; exact h ((asString_eq_empty_iff _).mp hs)

theorem parse_fallback_no_tags (hash : String → String) (jsonParse : String → Except String Json)
    (jsonToString : Json → String) (t : String)
    (h : find_first_tag t.toList TOOL_CALL_OPEN_TAGS = none) (ht : rustTrim t ≠ "") :
    parse_tool_calls_fallback hash jsonParse jsonToString t = (rustTrim t, []) := by
  have htl : trimList t.toList ≠ [] := (rustTrim_ne_empty_iff t).mp ht
  unfold parse_tool_calls_fallback
  rw [show t.toList.length + 1 = (t.toList.length) + 1 from rfl]
  simp only [parse_fallback_loop, h, htl, if_neg htl]
  simp [joinSep, rustTrim]

theorem parse_fallback_empty (hash : String → String) (jsonParse : String → Except String Json)
    (jsonToString : Json → String) :
    parse_tool_calls_fallback hash jsonParse jsonToString "" = ("", []) := by
  have h : find_first_tag ("" : String).toList TOOL_CALL_OPEN_TAGS = none := by decide
  unfold parse_tool_calls_fallback
  simp only [parse_fallback_loop, h]
  simp [joinSep, trimList, trimLeftList, trimRightList]

theorem detect_nil_single (hash : String → String) (a : ToolCall) :
    detect_tool_loop hash [] [a] = ([ToolCallSignature.from_tool_call hash a], none) := by
  simp [detect_tool_loop, pushSignatures, pushSignature, scanForLoop, LOOP_DETECTION_WINDOW]

theorem detect_one_single (hash : String → String) (a : ToolCall) :
    detect_tool_loop hash [ToolCallSignature.from_tool_call hash a] [a] =
      ([ToolCallSignature.from_tool_call hash a, ToolCallSignature.from_tool_call hash a],
       none) := by
  simp [detect_tool_loop, pushSignatures, pushSignature, scanForLoop, LOOP_DETECTION_WINDOW,
    LOOP_DETECTION_THRESHOLD]

theorem detect_two_single_same (hash : String → String) (a : ToolCall) :
    detect_tool_loop hash
      [ToolCallSignature.from_tool_call hash a, ToolCallSignature.from_tool_call hash a] [a] =
      ([ToolCallSignature.from_tool_call hash a, ToolCallSignature.from_tool_call hash a,
        ToolCallSignature.from_tool_call hash a],
       some (loopMessage a.name 3)) := by
  simp [detect_tool_loop, pushSignatures, pushSignature, scanForLoop, LOOP_DETECTION_WINDOW,
    LOOP_DETECTION_THRESHOLD, ToolCallSignature.from_tool_call]

theorem detect_two_single_diff (hash : String → String) (a b : ToolCall)
    (h : ToolCallSignature.from_tool_call hash a ≠ ToolCallSignature.from_tool_call hash b) :
    detect_tool_loop hash
      [ToolCallSignature.from_tool_call hash a, ToolCallSignature.from_tool_call hash a] [b] =
      ([ToolCallSignature.from_tool_call hash a, ToolCallSignature.from_tool_call hash a,
        ToolCallSignature.from_tool_call hash b],
       none) := by
  have h' : ToolCallSignature.from_tool_call hash b ≠ ToolCallSignature.from_tool_call hash a :=
    Ne.symm h
  simp [detect_tool_loop, pushSignatures, pushSignature, scanForLoop, LOOP_DETECTION_WINDOW,
    LOOP_DETECTION_THRESHOLD, h']

theorem exec_tool_calls_error_indep (env : LoopEnv) (reg : ToolRegistry) :
    ∀ (calls : List ToolCall) (m m' : List ChatMessage) (e : String),
      exec_tool_calls env reg calls m = Except.error e →
      exec_tool_calls env reg calls m' = Except.error e := by
  intro calls
  induction calls with
  | nil => intro m m' e h; simp [exec_tool_calls] at h
  | cons tc rest ih =>
    intro m m' e h
    simp only [exec_tool_calls] at h ⊢
    cases hp : env.jsonParse tc.arguments with
    | error pe => rw [hp] at h; exact h
    | ok j => rw [hp] at h; exact ih _ _ e h

theorem exec_tool_calls_ok_indep (env : LoopEnv) (reg : ToolRegistry) :
    ∀ (calls : List ToolCall) (m m' : List ChatMessage) (x : List ChatMessage),
      exec_tool_calls env reg calls m = Except.ok x →
      ∃ y, exec_tool_calls env reg calls m' = Except.ok y := by
  intro calls
  induction calls with
  | nil => intro m m' x _; exact ⟨m', rfl⟩
  | cons tc rest ih =>
    intro m m' x h
    simp only [exec_tool_calls] at h ⊢
    cases hp : env.jsonParse tc.arguments with
    | error pe => rw [hp] at h; exact absurd h (by simp)
    | ok j => rw [hp] at h; exact ih _ _ x h

theorem process_iter_messages_indep (env : LoopEnv) (cfg : AgentConfig) :
    ∀ (fuel iter : Nat) (m1 m2 : List ChatMessage) (w : List ToolCallSignature),
      process_iter env cfg fuel iter m1 w = process_iter env cfg fuel iter m2 w := by
  intro fuel
  induction fuel with
  | zero => intro iter m1 m2 w; rfl
  | succ f ih =>
    intro iter m1 m2 w
    simp only [process_iter]
    cases hchat : env.chat iter with
    | error e => simp only [hchat]
    | ok response =>
      simp only [hchat]
      cases hint : interpret_response env response with
      | none => simp only [hint]
      | some p =>
        obtain ⟨text, calls⟩ := p
        simp only [hint]
        cases hemp : calls.isEmpty with
        | true => simp [hemp]
        | false =>
          simp only [hemp, Bool.false_eq_true, if_false]
          cases hdet : detect_tool_loop env.hash w calls with
          | mk w' od =>
            cases od with
            | some m => simp only [hdet]
            | none =>
              simp only [hdet]
              cases hex : exec_tool_calls env cfg.registry calls
                  (m1 ++ [ChatMessage.assistant_with_tool_calls text calls]) with
              | error e =>
                rw [exec_tool_calls_error_indep env cfg.registry calls _
                  (m2 ++ [ChatMessage.assistant_with_tool_calls text calls]) e hex]
              | ok x =>
                obtain ⟨y, hy⟩ := exec_tool_calls_ok_indep env cfg.registry calls _
                  (m2 ++ [ChatMessage.assistant_with_tool_calls text calls]) x hex
                simp only [hex, hy]
                exact ih (iter + 1) _ _ w'

theorem interpret_response_with_calls (env : LoopEnv) (text : String) (calls : List ToolCall)
    (hne : calls.isEmpty = false) :
    interpret_response env ⟨some text, calls⟩ = some (text, calls) := by
  simp [interpret_response, ChatResponse.has_tool_calls, hne]

theorem interpret_response_text_only (env : LoopEnv) (t : String) :
    interpret_response env ⟨some t, []⟩ =
      some (parse_tool_calls_fallback env.hash env.jsonParse env.jsonToString t) := by
  simp [interpret_response, ChatResponse.has_tool_calls]

theorem exec_tool_calls_ok_of_parses (env : LoopEnv) (reg : ToolRegistry) :
    ∀ (calls : List ToolCall) (m : List ChatMessage),
      (∀ tc ∈ calls, ∃ j, env.jsonParse tc.arguments = Except.ok j) →
      ∃ y, exec_tool_calls env reg calls m = Except.ok y := by
  intro calls
  induction calls with
  | nil => intro m _; exact ⟨m, rfl⟩
  | cons tc rest ih =>
    intro m hp
    obtain ⟨j, hj⟩ := hp tc (List.mem_cons_self tc rest)
    simp only [exec_tool_calls, hj]
    exact ih _ (fun tc' h' => hp tc' (List.mem_cons_of_mem tc h'))

theorem process_iter_step_toolcalls (env : LoopEnv) (cfg : AgentConfig) (f iter : Nat)
    (msgs : List ChatMessage) (w : List ToolCallSignature) (text : String)
    (calls : List ToolCall) (w' : List ToolCallSignature)
    (hchat : env.chat iter = Except.ok ⟨some text, calls⟩)
    (hne : calls.isEmpty = false)
    (hdet : detect_tool_loop env.hash w calls = (w', none))
    (hparse : ∀ tc ∈ calls, ∃ j, env.jsonParse tc.arguments = Except.ok j) :
    process_iter env cfg (f + 1) iter msgs w = process_iter env cfg f (iter + 1) [] w' := by
  obtain ⟨y, hy⟩ := exec_tool_calls_ok_of_parses env cfg.registry calls
    (msgs ++ [ChatMessage.assistant_with_tool_calls text calls]) hparse
  simp only [process_iter, hchat, interpret_response_with_calls env text calls hne, hne,
    Bool.false_eq_true, if_false, hdet, hy]
  exact process_iter_messages_indep env cfg f (iter + 1) _ _ w'

theorem process_iter_loop_detected (env : LoopEnv) (cfg : AgentConfig) (f iter : Nat)
    (msgs : List ChatMessage) (w : List ToolCallSignature) (text : String)
    (calls : List ToolCall) (w' : List ToolCallSignature) (m : String)
    (hchat : env.chat iter = Except.ok ⟨some text, calls⟩)
    (hne : calls.isEmpty = false)
    (hdet : detect_tool_loop env.hash w calls = (w', some m)) :
    process_iter env cfg (f + 1) iter msgs w = Except.error m := by
  simp only [process_iter, hchat, interpret_response_with_calls env text calls hne, hne,
    Bool.false_eq_true, if_false, hdet]

theorem process_iter_final_text (env : LoopEnv) (cfg : AgentConfig) (f iter : Nat)
    (msgs : List ChatMessage) (w : List ToolCallSignature) (t : String)
    (hchat : env.chat iter = Except.ok ⟨some t, []⟩)
    (hnotags : find_first_tag t.toList TOOL_CALL_OPEN_TAGS = none)
    (htrim : rustTrim t ≠ "") :
    process_iter env cfg (f + 1) iter msgs w = Except.ok (rustTrim t) := by
  simp only [process_iter, hchat, interpret_response_text_only,
    parse_fallback_no_tags env.hash env.jsonParse env.jsonToString t hnotags htrim,
    List.isEmpty_nil, if_true, htrim, if_false]

/-! ## Claim theorems -/

/-- Claim C1: with the sliding window of size 5 over tool-call signatures
(name plus hash of the argument string), three consecutive tool calls with
identical name and argument string make the `process` call abort with the
descriptive loop-detected failure, while two consecutive identical calls
followed by a third whose signature differs do not abort: the loop keeps
running and returns the following plain-text answer. -/
theorem C1_loop_detection :
    (∀ (env : LoopEnv) (cfg : AgentConfig) (messages0 : List ChatMessage) (f : Nat)
        (a : ToolCall),
      cfg.max_iterations = f + 3 →
      (∃ j, env.jsonParse a.arguments = Except.ok j) →
      env.chat 1 = Except.ok ⟨some "", [a]⟩ →
      env.chat 2 = Except.ok ⟨some "", [a]⟩ →
      env.chat 3 = Except.ok ⟨some "", [a]⟩ →
      process_from env cfg messages0 = Except.error (loopMessage a.name 3)) ∧
    (∀ (env : LoopEnv) (cfg : AgentConfig) (messages0 : List ChatMessage) (f : Nat)
        (a b : ToolCall) (t : String),
      cfg.max_iterations = f + 4 →
      ToolCallSignature.from_tool_call env.hash a ≠ ToolCallSignature.from_tool_call env.hash b →
      (∃ j, env.jsonParse a.arguments = Except.ok j) →
      (∃ j, env.jsonParse b.arguments = Except.ok j) →
      env.chat 1 = Except.ok ⟨some "", [a]⟩ →
      env.chat 2 = Except.ok ⟨some "", [a]⟩ →
      env.chat 3 = Except.ok ⟨some "", [b]⟩ →
      env.chat 4 = Except.ok ⟨some t, []⟩ →
      find_first_tag t.toList TOOL_CALL_OPEN_TAGS = none →
      rustTrim t ≠ "" →
      process_from env cfg messages0 = Except.ok (rustTrim t)) := by
  constructor
  · intro env cfg messages0 f a hfi hj h1 h2 h3
    have hpa : ∀ tc ∈ [a], ∃ j, env.jsonParse tc.arguments = Except.ok j := by
      intro tc htc
      rw [List.mem_singleton] at htc
      subst htc
      exact hj
    have hne : ([a] : List ToolCall).isEmpty = false := rfl
    calc process_from env cfg messages0
        = process_iter env cfg (f + 3) 1 messages0 [] := by rw [process_from, hfi]
      _ = process_iter env cfg (f + 2) 2 [] [ToolCallSignature.from_tool_call env.hash a] :=
          process_iter_step_toolcalls env cfg (f + 2) 1 messages0 [] "" [a] _ h1 hne
            (detect_nil_single env.hash a) hpa
      _ = process_iter env cfg (f + 1) 3 []
            [ToolCallSignature.from_tool_call env.hash a,
             ToolCallSignature.from_tool_call env.hash a] :=
          process_iter_step_toolcalls env cfg (f + 1) 2 [] _ "" [a] _ h2 hne
            (detect_one_single env.hash a) hpa
      _ = Except.error (loopMessage a.name 3) :=
          process_iter_loop_detected env cfg f 3 [] _ "" [a] _ _ h3 hne
            (detect_two_single_same env.hash a)
  · intro env cfg messages0 f a b t hfi hsig hja hjb h1 h2 h3 h4 hnotags htrim
    have hpa : ∀ tc ∈ [a], ∃ j, env.jsonParse tc.arguments = Except.ok j := by
      intro tc htc
      rw [List.mem_singleton] at htc
      subst htc
      exact hja
    have hpb : ∀ tc ∈ [b], ∃ j, env.jsonParse tc.arguments = Except.ok j := by
      intro tc htc
      rw [List.mem_singleton] at htc
      subst htc
      exact hjb
    have hne : ∀ c : ToolCall, ([c] : List ToolCall).isEmpty = false := fun _ => rfl
    calc process_from env cfg messages0
        = process_iter env cfg (f + 4) 1 messages0 [] := by rw [process_from, hfi]
      _ = process_iter env cfg (f + 3) 2 [] [ToolCallSignature.from_tool_call env.hash a] :=
          process_iter_step_toolcalls env cfg (f + 3) 1 messages0 [] "" [a] _ h1 (hne a)
            (detect_nil_single env.hash a) hpa
      _ = process_iter env cfg (f + 2) 3 []
            [ToolCallSignature.from_tool_call env.hash a,
             ToolCallSignature.from_tool_call env.hash a] :=
          process_iter_step_toolcalls env cfg (f + 2) 2 [] _ "" [a] _ h2 (hne a)
            (detect_one_single env.hash a) hpa
      _ = process_iter env cfg (f + 1) 4 []
            [ToolCallSignature.from_tool_call env.hash a,
             ToolCallSignature.from_tool_call env.hash a,
             ToolCallSignature.from_tool_call env.hash b] :=
          process_iter_step_toolcalls env cfg (f + 1) 3 [] _ "" [b] _ h3 (hne b)
            (detect_two_single_diff env.hash a b hsig) hpb
      _ = Except.ok (rustTrim t) :=
          process_iter_final_text env cfg f 4 [] _ t h4 hnotags htrim

/-- Witness for C1: three identical `shell` calls abort with the loop-detected
message; two identical calls and a differing third let the run finish with the
final answer. -/
theorem C1_loop_detection_witness :
    process_from envLoopThree ⟨3, DEFAULT_MAX_HISTORY, []⟩ [] =
      Except.error (loopMessage "shell" 3) ∧
    process_from envLoopTwoPlusDiff ⟨4, DEFAULT_MAX_HISTORY, []⟩ [] = Except.ok "done" := by
  constructor
  · exact C1_loop_detection.1 envLoopThree ⟨3, DEFAULT_MAX_HISTORY, []⟩ [] 0 tcA rfl
      ⟨Json.null, rfl⟩ rfl rfl rfl
  · have h := C1_loop_detection.2 envLoopTwoPlusDiff ⟨4, DEFAULT_MAX_HISTORY, []⟩ [] 0 tcA tcB
      "done" rfl (by decide) ⟨Json.null, rfl⟩ ⟨Json.null, rfl⟩ rfl rfl rfl rfl (by decide)
      (by decide)
    have ht : rustTrim "done" = "done" := by decide
    rw [ht] at h
    exact h

/-- Claim C3: `ToolRegistry::execute` never propagates an error to its caller:
an unregistered name yields a `ToolResult` failure carrying
`Tool '<name>' not found`, a tool error `e` yields a failure carrying
`Execution failed: <e>`, a tool success is returned as is; and a turn whose
only tool call names an unregistered tool does not abort the agent loop, which
continues into the next iteration and returns its final answer. -/
theorem C3_registry_never_propagates :
    (∀ (reg : ToolRegistry) (name : String) (args : Json),
      ToolRegistry.get reg name = none →
      ToolRegistry.execute reg name args =
        ToolResult.mkError ("Tool \x27" ++ name ++ "\x27 not found")) ∧
    (∀ (reg : ToolRegistry) (name : String) (args : Json) (t : Tool) (e : String),
      ToolRegistry.get reg name = some t → t.execute args = Except.error e →
      ToolRegistry.execute reg name args = ToolResult.mkError ("Execution failed: " ++ e)) ∧
    (∀ (reg : ToolRegistry) (name : String) (args : Json) (t : Tool) (r : ToolResult),
      ToolRegistry.get reg name = some t → t.execute args = Except.ok r →
      ToolRegistry.execute reg name args = r) ∧
    (∀ (env : LoopEnv) (cfg : AgentConfig) (messages0 : List ChatMessage) (f : Nat)
        (a : ToolCall) (t : String),
      cfg.max_iterations = f + 2 →
      ToolRegistry.get cfg.registry a.name = none →
      (∃ j, env.jsonParse a.arguments = Except.ok j) →
      env.chat 1 = Except.ok ⟨some "", [a]⟩ →
      env.chat 2 = Except.ok ⟨some t, []⟩ →
      find_first_tag t.toList TOOL_CALL_OPEN_TAGS = none →
      rustTrim t ≠ "" →
      process_from env cfg messages0 = Except.ok (rustTrim t)) := by
  refine ⟨?_, ?_, ?_, ?_⟩
  · intro reg name args hget
    simp [ToolRegistry.execute, hget]
  · intro reg name args t e hget hexec
    simp [ToolRegistry.execute, hget, hexec]
  · intro reg name args t r hget hexec
    simp [ToolRegistry.execute, hget, hexec]
  · intro env cfg messages0 f a t hfi _hget hj h1 h2 hnotags htrim
    have hpa : ∀ tc ∈ [a], ∃ j, env.jsonParse tc.arguments = Except.ok j := by
      intro tc htc
      rw [List.mem_singleton] at htc
      subst htc
      exact hj
    calc process_from env cfg messages0
        = process_iter env cfg (f + 2) 1 messages0 [] := by rw [process_from, hfi]
      _ = process_iter env cfg (f + 1) 2 [] [ToolCallSignature.from_tool_call env.hash a] :=
          process_iter_step_toolcalls env cfg (f + 1) 1 messages0 [] "" [a] _ h1 rfl
            (detect_nil_single env.hash a) hpa
      _ = Except.ok (rustTrim t) :=
          process_iter_final_text env cfg f 2 [] _ t h2 hnotags htrim

/-- Witness for C3: an unknown name and a failing tool both come back as
`ToolResult` failures, a succeeding tool's result is passed through, and a
turn calling the unregistered `shell` tool ends with the next iteration's
answer instead of aborting. -/
theorem C3_registry_never_propagates_witness :
    ToolRegistry.execute [] "shell" Json.null =
      ToolResult.mkError "Tool \x27shell\x27 not found" ∧
    ToolRegistry.execute [("f", toolFail)] "f" Json.null =
      ToolResult.mkError "Execution failed: boom" ∧
    ToolRegistry.execute [("shell", toolW1)] "shell" Json.null = ToolResult.mkSuccess "one" ∧
    process_from envUnknownTool ⟨2, DEFAULT_MAX_HISTORY, []⟩ [] = Except.ok "done" := by
  refine ⟨?_, ?_, ?_, ?_⟩
  · exact C3_registry_never_propagates.1 [] "shell" Json.null rfl
  · exact C3_registry_never_propagates.2.1 [("f", toolFail)] "f" Json.null toolFail "boom" rfl rfl
  · exact C3_registry_never_propagates.2.2.1 [("shell", toolW1)] "shell" Json.null toolW1
      (ToolResult.mkSuccess "one") rfl rfl
  · have h := C3_registry_never_propagates.2.2.2 envUnknownTool ⟨2, DEFAULT_MAX_HISTORY, []⟩ [] 0
      tcA "done" rfl rfl ⟨Json.null, rfl⟩ rfl rfl (by decide) (by decide)
    have ht : rustTrim "done" = "done" := by decide
    rw [ht] at h
    exact h

/-- Claim C4 counterexample: a provider response carrying no text at all
(`text = None`) and no tool calls does not abort the `process` call — the
source returns `Ok("No response from provider")`, a success value. -/
theorem C4_counterexample :
    process_with_history promptEnv0 envNoResponse ⟨20, DEFAULT_MAX_HISTORY, []⟩ "hi" [] =
      Except.ok "No response from provider" ∧
    ∀ e, process_with_history promptEnv0 envNoResponse ⟨20, DEFAULT_MAX_HISTORY, []⟩ "hi" [] ≠
      Except.error e := by
  have h1 : process_with_history promptEnv0 envNoResponse ⟨20, DEFAULT_MAX_HISTORY, []⟩ "hi" [] =
      Except.ok "No response from provider" := rfl
  refine ⟨h1, ?_⟩
  intro e h
  rw [h1] at h
  exact Except.noConfusion h

/-- Claim C4 amended: with no tool calls, a response whose text is present but
empty aborts the `process` call with `Empty response from model. Please try
again.`; a response with no text at all instead terminates successfully with
the literal `No response from provider`. -/
theorem C4_empty_vs_missing_text :
    ∀ (env : LoopEnv) (cfg : AgentConfig) (fuel iter : Nat) (messages : List ChatMessage)
      (w : List ToolCallSignature),
      (env.chat iter = Except.ok ⟨some "", []⟩ →
        process_iter env cfg (fuel + 1) iter messages w =
          Except.error "Empty response from model. Please try again.") ∧
      (env.chat iter = Except.ok ⟨none, []⟩ →
        process_iter env cfg (fuel + 1) iter messages w = Except.ok "No response from provider") := by
  intro env cfg fuel iter messages w
  constructor
  · intro h
    have hempty : interpret_response env ⟨some "", []⟩ = some ("", []) := by
      rw [interpret_response_text_only, parse_fallback_empty]
    simp [process_iter, h, hempty]
  · intro h
    have hnone : interpret_response env ⟨none, []⟩ = none := by
      simp [interpret_response, ChatResponse.has_tool_calls]
    simp [process_iter, h, hnone]

/-- Witness for the amended C4: a concrete empty-text provider aborts, a
concrete text-less provider returns the canned success string. -/
theorem C4_empty_vs_missing_text_witness :
    process_iter envEmptyText ⟨1, DEFAULT_MAX_HISTORY, []⟩ 1 1 [] [] =
      Except.error "Empty response from model. Please try again." ∧
    process_iter envNoResponse ⟨1, DEFAULT_MAX_HISTORY, []⟩ 1 1 [] [] =
      Except.ok "No response from provider" := by
  constructor
  · exact (C4_empty_vs_missing_text envEmptyText ⟨1, DEFAULT_MAX_HISTORY, []⟩ 0 1 [] []).1 rfl
  · exact (C4_empty_vs_missing_text envNoResponse ⟨1, DEFAULT_MAX_HISTORY, []⟩ 0 1 [] []).2 rfl

theorem nonSystemCount_splice (messages : List ChatMessage) (sm : ChatMessage)
    (hsm : (sm.role == "system") = false) (cc : Nat)
    (hcc : cc ≤ nonSystemCount messages) :
    nonSystemCount (messages.take (systemStart messages) ++ [sm] ++
      messages.drop (systemStart messages + cc)) = nonSystemCount messages - cc + 1 := by
  cases hls : hasLeadingSystem messages with
  | true =>
    cases messages with
    | nil => simp [hasLeadingSystem] at hls
    | cons m rest =>
      have hrole : (m.role == "system") = true := hls
      have hstart : systemStart (m :: rest) = 1 := by
        unfold systemStart
        rw [hls]
        rfl
      have hnsc : nonSystemCount (m :: rest) = rest.length := by
        unfold nonSystemCount
        rw [hstart]
        simp
      rw [hstart, hnsc]
      rw [hnsc] at hcc
      have hshape : (m :: rest).take 1 ++ [sm] ++ (m :: rest).drop (1 + cc) =
          m :: sm :: rest.drop cc := by
        rw [Nat.add_comm 1 cc]
        simp [List.take_cons, List.drop_succ_cons]
      rw [hshape]
      have hls2 : hasLeadingSystem (m :: sm :: rest.drop cc) = true := hrole
      unfold nonSystemCount systemStart
      simp only [hls2, if_true, List.length_cons, List.length_drop]
      omega
  | false =>
    have hstart : systemStart messages = 0 := by
      unfold systemStart
      rw [hls]
      rfl
    have hnsc : nonSystemCount messages = messages.length := by
      unfold nonSystemCount
      rw [hstart]
      exact Nat.sub_zero _
    rw [hstart, hnsc]
    rw [hnsc] at hcc
    simp only [List.take_zero, Nat.zero_add, List.nil_append, List.cons_append]
    have hls2 : hasLeadingSystem (sm :: messages.drop cc) = false := hsm
    unfold nonSystemCount systemStart
    simp only [hls2, Bool.false_eq_true, if_false, List.length_cons, List.length_drop,
      Nat.sub_zero]

/-- Claim C2 counterexample: with `max_history = 0` (settable through
`with_max_history`) and a single non-system message, the compaction trigger
fires, yet `compact_history` keeps the message count at 1, not
`COMPACT_KEEP_RECENT + 1 = 21`. -/
theorem C2_counterexample :
    should_compact_history 0 [ChatMessage.system "s", ChatMessage.user "u"] = true ∧
    nonSystemCount
      (maybe_compact noSummarize 0 [ChatMessage.system "s", ChatMessage.user "u"]) = 1 ∧
    (1 : Nat) ≠ COMPACT_KEEP_RECENT + 1 := by
  refine ⟨by decide, by decide, by decide⟩

/-- Claim C2 amended: whenever the non-system message count exceeds
`max_history` and `max_history` is at least `COMPACT_KEEP_RECENT` (as with the
default 50), compaction runs and afterwards the non-system count equals
`COMPACT_KEEP_RECENT + 1`; the compacted range is replaced in place by a single
assistant message whose content begins with `[Conversation summary]` and is
non-empty. -/
theorem C2_compaction_amended :
    ∀ (chatSummarize : String → Option String) (max_history : Nat)
      (messages : List ChatMessage),
      COMPACT_KEEP_RECENT ≤ max_history →
      max_history < nonSystemCount messages →
      nonSystemCount (maybe_compact chatSummarize max_history messages) =
        COMPACT_KEEP_RECENT + 1 ∧
      ∃ summary,
        maybe_compact chatSummarize max_history messages =
          messages.take (systemStart messages) ++
            [ChatMessage.assistant ("[Conversation summary]\n" ++ summary)] ++
            messages.drop (systemStart messages +
              (nonSystemCount messages - COMPACT_KEEP_RECENT)) ∧
        ("[Conversation summary]".toList).isPrefixOf
          ("[Conversation summary]\n" ++ summary).toList = true ∧
        "[Conversation summary]\n" ++ summary ≠ "" := by
  intro chatSummarize max_history messages h20 hgt
  have hcond : should_compact_history max_history messages = true := by
    simp [should_compact_history]
    exact hgt
  have hk : min COMPACT_KEEP_RECENT (nonSystemCount messages) = COMPACT_KEEP_RECENT := by
    have : COMPACT_KEEP_RECENT ≤ nonSystemCount messages := le_of_lt (lt_of_le_of_lt h20 hgt)
    exact min_eq_left this
  have hcc : nonSystemCount messages - COMPACT_KEEP_RECENT ≠ 0 := by
    have : COMPACT_KEEP_RECENT < nonSystemCount messages := lt_of_le_of_lt h20 hgt
    omega
  have hres : maybe_compact chatSummarize max_history messages =
      messages.take (systemStart messages) ++
        [ChatMessage.assistant ("[Conversation summary]\n" ++
          rustTrim (summarizeResult chatSummarize
            (build_transcript ((messages.drop (systemStart messages)).take
              (nonSystemCount messages - COMPACT_KEEP_RECENT)))))] ++
        messages.drop (systemStart messages +
          (nonSystemCount messages - COMPACT_KEEP_RECENT)) := by
    unfold maybe_compact
    rw [if_pos hcond]
    unfold compact_history
    simp only [hk]
    rw [if_neg hcc]
  refine ⟨?_, ⟨rustTrim (summarizeResult chatSummarize
    (build_transcript ((messages.drop (systemStart messages)).take
      (nonSystemCount messages - COMPACT_KEEP_RECENT)))), hres, ?_, ?_⟩⟩
  · rw [hres]
    have hccle : nonSystemCount messages - COMPACT_KEEP_RECENT ≤ nonSystemCount messages :=
      Nat.sub_le _ _
    rw [nonSystemCount_splice messages
      (ChatMessage.assistant ("[Conversation summary]\n" ++
        rustTrim (summarizeResult chatSummarize
          (build_transcript ((messages.drop (systemStart messages)).take
            (nonSystemCount messages - COMPACT_KEEP_RECENT))))))
      rfl (nonSystemCount messages - COMPACT_KEEP_RECENT) hccle]
    have h21 : COMPACT_KEEP_RECENT < nonSystemCount messages := lt_of_le_of_lt h20 hgt
    omega
  · have hp : ("[Conversation summary]".toList).isPrefixOf
        "[Conversation summary]\n".toList = true := by decide
    have := isPrefixOf_append_of_isPrefixOf "[Conversation summary]".toList
      "[Conversation summary]\n".toList (rustTrim (summarizeResult chatSummarize
        (build_transcript ((messages.drop (systemStart messages)).take
          (nonSystemCount messages - COMPACT_KEEP_RECENT))))).toList hp
    rw [← string_toList_append] at this
    exact this
  · intro heq
    have := congrArg String.toList heq
    rw [string_toList_append] at this
    simp at this

/-- Witness for the amended C2: the default configuration (`max_history = 50`)
with 51 non-system messages compacts to exactly 21 non-system messages and a
leading `[Conversation summary]` message. -/
theorem C2_compaction_amended_witness :
    COMPACT_KEEP_RECENT ≤ DEFAULT_MAX_HISTORY ∧
    DEFAULT_MAX_HISTORY <
      nonSystemCount (ChatMessage.system "s" :: List.replicate 51 (ChatMessage.user "u")) ∧
    nonSystemCount (maybe_compact noSummarize DEFAULT_MAX_HISTORY
      (ChatMessage.system "s" :: List.replicate 51 (ChatMessage.user "u"))) =
      COMPACT_KEEP_RECENT + 1 := by
  refine ⟨by decide, by decide, ?_⟩
  exact (C2_compaction_amended noSummarize DEFAULT_MAX_HISTORY
    (ChatMessage.system "s" :: List.replicate 51 (ChatMessage.user "u"))
    (by decide) (by decide)).1

/-- Claim C5 counterexample: on `hello <invoke xyz` the opening `<invoke` tag
has no matching closing tag; the parser flushes `hello` as a text part and then
appends the whole remaining input — which still contains `hello` — so the text
preceding the tag is duplicated in the returned output. -/
theorem C5_counterexample :
    parse_tool_calls_fallback idHash noParse constJsonToString "hello <invoke xyz" =
      ("hello\nhello <invoke xyz", []) ∧
    ("hello\nhello <invoke xyz" : String) ≠ "hello\n<invoke xyz" := by
  exact ⟨by decide, by decide⟩

/-- Claim C5 amended: when the first recognized opening tag has no matching
closing tag afterwards, no tool calls are extracted; the trimmed text before
the tag is pushed once as a text part, and then the trimmed ENTIRE remaining
input (which still begins with that same preceding text) is pushed as the
trailing part, so the text before the tag can appear twice in the joined
output. -/
theorem C5_unclosed_tag_amended :
    ∀ (hash : String → String) (jsonParse : String → Except String Json)
      (jsonToString : Json → String) (response : String) (start : Nat)
      (open_tag close_tag : String),
      find_first_tag response.toList TOOL_CALL_OPEN_TAGS = some (start, open_tag) →
      matching_tool_call_close_tag open_tag = some close_tag →
      findSubstrIdx close_tag.toList
        (response.toList.drop (start + open_tag.toList.length)) = none →
      parse_tool_calls_fallback hash jsonParse jsonToString response =
        (joinSep "\n"
          (((if trimList (response.toList.take start) = [] then []
             else [trimList (response.toList.take start)]) ++
            (if trimList response.toList = [] then []
             else [trimList response.toList])).map List.asString),
         []) := by
  intro hash jsonParse jsonToString response start open_tag close_tag hfind hclose hnone
  unfold parse_tool_calls_fallback
  simp only [parse_fallback_loop, hfind, hclose, hnone]
  simp only [String.toList] at *
  by_cases hb : trimList (response.data.take start) = []
  · by_cases hr : trimList response.data = []
    · simp [hb, hr]
    · simp [hb, hr]
  · by_cases hr : trimList response.data = []
    · simp [hb, hr]
    · simp [hb, hr]

/-- Witness for the amended C5: the concrete unclosed input evaluates to the
duplicated-text result through the amended theorem. -/
theorem C5_unclosed_tag_amended_witness :
    find_first_tag "hello <invoke xyz".toList TOOL_CALL_OPEN_TAGS = some (6, "<invoke") ∧
    parse_tool_calls_fallback idHash noParse constJsonToString "hello <invoke xyz" =
      ("hello\nhello <invoke xyz", []) := by
  refine ⟨by decide, ?_⟩
  have h := C5_unclosed_tag_amended idHash noParse constJsonToString "hello <invoke xyz" 6
    "<invoke" "</invoke>" (by decide) (by decide) (by decide)
  rw [h]
  decide

/-- Claim C6 counterexample: the file content ` x` (two characters, far under
the limit) does not appear verbatim in its labeled section — the section
carries the trimmed content `x`, and the raw content is not a substring of the
emitted bootstrap prompt. -/
theorem C6_counterexample :
    charsCount " x" ≤ BOOTSTRAP_MAX_CHARS ∧
    load_bootstrap_files (fun n => if n == "SOUL.md" then some " x" else none) =
      some "## Agent Identity (SOUL.md)\n\nx" ∧
    (findSubstrIdx " x".toList "## Agent Identity (SOUL.md)\n\nx".toList).isSome = false := by
  refine ⟨by decide, by decide, by decide⟩

/-- Claim C6 amended: for every bootstrap workspace file that is present and
non-empty after whitespace trimming, its labeled section appears in the
bootstrap prompt; when the trimmed content exceeds 20,000 characters the
section carries the first 20,000 characters followed by the overflow notice
directing the model to `file_read`, and otherwise it carries the trimmed
content verbatim. -/
theorem C6_bootstrap_amended :
    ∀ (readFile : String → Option String) (file header : String),
      (file, header) ∈ BOOTSTRAP_FILES →
      ∀ content, readFile file = some content →
      rustTrim content ≠ "" →
      ∃ s, load_bootstrap_files readFile = some s ∧
        (findSubstrIdx (header ++ "\n\n" ++ bootstrapBody (rustTrim content)).toList
          s.toList).isSome = true ∧
        (BOOTSTRAP_MAX_CHARS < charsCount (rustTrim content) →
          bootstrapBody (rustTrim content) =
            charsTake BOOTSTRAP_MAX_CHARS (rustTrim content) ++ bootstrapOverflowNotice) ∧
        (charsCount (rustTrim content) ≤ BOOTSTRAP_MAX_CHARS →
          bootstrapBody (rustTrim content) = rustTrim content) := by
  intro readFile file header hin content hread htrim
  have hpart : bootstrapPart readFile (file, header) =
      some (header ++ "\n\n" ++ bootstrapBody (rustTrim content)) := by
    simp [bootstrapPart, hread, htrim]
  have hmem : (header ++ "\n\n" ++ bootstrapBody (rustTrim content)) ∈
      BOOTSTRAP_FILES.filterMap (bootstrapPart readFile) :=
    List.mem_filterMap.mpr ⟨(file, header), hin, hpart⟩
  have hne : BOOTSTRAP_FILES.filterMap (bootstrapPart readFile) ≠ [] :=
    List.ne_nil_of_mem hmem
  refine ⟨joinSep "\n\n---\n\n" (BOOTSTRAP_FILES.filterMap (bootstrapPart readFile)),
    ?_, ?_, ?_, ?_⟩
  · unfold load_bootstrap_files
    rw [if_neg hne]
  · exact contains_joinSep_of_mem "\n\n---\n\n" _ _ hmem
  · intro h
    unfold bootstrapBody
    rw [if_pos h]
  · intro h
    unfold bootstrapBody
    rw [if_neg (not_lt.mpr h)]

/-- Witness for the amended C6: a present `SOUL.md` with content `hello world`
yields a bootstrap prompt containing its labeled section with the content
verbatim. -/
theorem C6_bootstrap_amended_witness :
    rustTrim "hello world" ≠ "" ∧
    ∃ s, load_bootstrap_files
        (fun n => if n == "SOUL.md" then some "hello world" else none) = some s ∧
      (findSubstrIdx ("## Agent Identity (SOUL.md)" ++ "\n\n" ++
        bootstrapBody (rustTrim "hello world")).toList s.toList).isSome = true := by
  refine ⟨by decide, ?_⟩
  obtain ⟨s, h1, h2, _, _⟩ := C6_bootstrap_amended
    (fun n => if n == "SOUL.md" then some "hello world" else none) "SOUL.md"
    "## Agent Identity (SOUL.md)" (by decide) "hello world" (by decide) (by decide)
  exact ⟨s, h1, h2⟩

/-- Claim C7: code bug.  A one-message history whose rendered transcript
`USER: aaa...a\n` has 12,008 characters exceeds the 12,000-character maximum
source size, but `build_transcript` hands it to `truncate_transcript`, which
truncates to `COMPACTION_MAX_SUMMARY_CHARS = 2000` characters plus `...` —
2,003 characters in total — instead of retaining the first 12,000 characters:
the `> COMPACTION_MAX_SOURCE_CHARS` guard is paired with a truncation to the
summary limit. -/
theorem C7_transcript_truncated_to_2000 :
    COMPACTION_MAX_SOURCE_CHARS <
      charsCount ("USER: " ++ (List.replicate 12001 'a').asString ++ "\n") ∧
    build_transcript [ChatMessage.user ((List.replicate 12001 'a').asString)] =
      "USER: " ++ (List.replicate 1994 'a').asString ++ "..." ∧
    charsCount (build_transcript [ChatMessage.user ((List.replicate 12001 'a').asString)]) =
      2003 := by
  have hjoin1 : ∀ s : String, String.join [s] = s := by
    intro s
    simp [String.join]
  have hlist : ("USER: " ++ (List.replicate 12001 'a').asString ++ "\n").toList =
      "USER: ".toList ++ (List.replicate 12001 'a' ++ "\n".toList) := by
    rw [string_toList_append, string_toList_append, List.append_assoc]
    rfl
  have hlen : charsCount ("USER: " ++ (List.replicate 12001 'a').asString ++ "\n") = 12008 := by
    unfold charsCount
    rw [hlist, List.length_append, List.length_append, List.length_replicate]
    rw [show ("USER: ".toList).length = 6 from rfl, show ("\n".toList).length = 1 from rfl]
  have h1 : COMPACTION_MAX_SOURCE_CHARS <
      charsCount ("USER: " ++ (List.replicate 12001 'a').asString ++ "\n") := by
    rw [hlen]
    decide
  have htrim : rustTrim ((List.replicate 12001 'a').asString) =
      (List.replicate 12001 'a').asString := by
    unfold rustTrim
    rw [show ((List.replicate 12001 'a').asString).toList = List.replicate 12001 'a' from rfl]
    rw [trimList_replicate_of_false 12001 'a' (by decide)]
  have hrow : rustUpper (ChatMessage.user ((List.replicate 12001 'a').asString)).role ++ ": " ++
      rustTrim (ChatMessage.user ((List.replicate 12001 'a').asString)).content ++ "\n" =
      "USER: " ++ (List.replicate 12001 'a').asString ++ "\n" := by
    rw [show (ChatMessage.user ((List.replicate 12001 'a').asString)).role = "user" from rfl,
      show (ChatMessage.user ((List.replicate 12001 'a').asString)).content =
        (List.replicate 12001 'a').asString from rfl,
      htrim, show rustUpper "user" = "USER" from by decide]
    rw [show ("USER: " : String) = "USER" ++ ": " from by decide, String.append_assoc,
      String.append_assoc]
  have htake : charsTake 2000 ("USER: " ++ (List.replicate 12001 'a').asString ++ "\n") =
      "USER: " ++ (List.replicate 1994 'a').asString := by
    unfold charsTake
    rw [hlist]
    rw [List.take_append_eq_append_take]
    rw [List.take_of_length_le (by decide : ("USER: ".toList).length ≤ 2000)]
    rw [show (2000 - ("USER: ".toList).length) = 1994 from by decide]
    rw [List.take_append_eq_append_take]
    rw [List.take_replicate]
    rw [show min 1994 12001 = 1994 from by decide]
    rw [List.length_replicate]
    rw [show (1994 - 12001 : Nat) = 0 from by decide]
    rw [List.take_zero, List.append_nil]
    rfl
  have htr : truncate_transcript ("USER: " ++ (List.replicate 12001 'a').asString ++ "\n") =
      "USER: " ++ (List.replicate 1994 'a').asString ++ "..." := by
    unfold truncate_transcript
    rw [if_neg (by rw [hlen]; decide)]
    rw [show COMPACTION_MAX_SUMMARY_CHARS = 2000 from rfl, htake, String.append_assoc]
  have hbt : build_transcript [ChatMessage.user ((List.replicate 12001 'a').asString)] =
      "USER: " ++ (List.replicate 1994 'a').asString ++ "..." := by
    unfold build_transcript
    rw [List.map_cons, List.map_nil, hrow, hjoin1]
    rw [if_pos h1, htr]
  refine ⟨h1, hbt, ?_⟩
  rw [hbt]
  unfold charsCount
  rw [string_toList_append, string_toList_append, List.append_assoc, List.length_append,
    List.length_append]
  rw [show ((List.replicate 1994 'a').asString).toList = List.replicate 1994 'a' from rfl,
    List.length_replicate]
  rw [show ("USER: ".toList).length = 6 from rfl, show ("...".toList).length = 3 from rfl]

theorem all_drop_of_all (l : List ChatMessage) (p : ChatMessage → Bool) (n : Nat)
    (h : l.all p = true) : (l.drop n).all p = true := by
  rw [List.all_eq_true] at h ⊢
  intro x hx
  exact h x (List.drop_subset n l hx)

theorem sysInvB_append (messages : List ChatMessage) (m' : ChatMessage)
    (hm : (m'.role != "system") = true) (h : sysInvB messages = true) :
    sysInvB (messages ++ [m']) = true := by
  cases messages with
  | nil => simp [sysInvB] at h
  | cons m rest =>
    unfold sysInvB at h ⊢
    rcases Bool.and_eq_true_iff.mp h with ⟨h1, h2⟩
    rw [List.cons_append]
    refine Bool.and_eq_true_iff.mpr ⟨h1, ?_⟩
    rw [List.all_append]
    rw [h2]
    simp [hm]

theorem compact_history_cases (cs : String → Option String) (messages : List ChatMessage) :
    compact_history cs messages = messages ∨
    ∃ s, compact_history cs messages =
      messages.take (systemStart messages) ++ [ChatMessage.assistant s] ++
        messages.drop (systemStart messages +
          (nonSystemCount messages - min COMPACT_KEEP_RECENT (nonSystemCount messages))) := by
  by_cases hcc : nonSystemCount messages - min COMPACT_KEEP_RECENT (nonSystemCount messages) = 0
  · left
    unfold compact_history
    simp only []
    rw [if_pos hcc]
  · right
    refine ⟨"[Conversation summary]\n" ++ rustTrim (summarizeResult cs
      (build_transcript ((messages.drop (systemStart messages)).take
        (nonSystemCount messages - min COMPACT_KEEP_RECENT (nonSystemCount messages))))), ?_⟩
    unfold compact_history
    simp only []
    rw [if_neg hcc]

/-- Claim C8: `build_messages` over a system-free history produces a list with
exactly one leading `system` message and no other `system` message, and every
subsequent operation of a `process` call — appending an assistant message,
appending an assistant message with tool calls, appending a tool-result
message, and history compaction — preserves this invariant; compaction also
never removes or alters the head of the list, which stays the leading system
message. -/
theorem C8_system_invariant :
    (∀ (env : PromptEnv) (history : List ChatMessage) (msg : String),
      history.all (fun x => x.role != "system") = true →
      sysInvB (build_messages env history msg) = true) ∧
    (∀ (messages : List ChatMessage) (content : String),
      sysInvB messages = true →
      sysInvB (messages ++ [ChatMessage.assistant content]) = true) ∧
    (∀ (messages : List ChatMessage) (content : String) (calls : List ToolCall),
      sysInvB messages = true →
      sysInvB (messages ++ [ChatMessage.assistant_with_tool_calls content calls]) = true) ∧
    (∀ (messages : List ChatMessage) (id content : String),
      sysInvB messages = true →
      sysInvB (messages ++ [ChatMessage.tool_result id content]) = true) ∧
    (∀ (chatSummarize : String → Option String) (max_history : Nat)
        (messages : List ChatMessage),
      sysInvB messages = true →
      sysInvB (maybe_compact chatSummarize max_history messages) = true ∧
      (maybe_compact chatSummarize max_history messages).head? = messages.head?) := by
  refine ⟨?_, ?_, ?_, ?_, ?_⟩
  · intro env history msg hall
    unfold build_messages sysInvB
    refine Bool.and_eq_true_iff.mpr ⟨rfl, ?_⟩
    rw [List.all_append, hall]
    simp [ChatMessage.user]
  · intro messages content h
    exact sysInvB_append messages _ rfl h
  · intro messages content calls h
    exact sysInvB_append messages _ rfl h
  · intro messages id content h
    exact sysInvB_append messages _ rfl h
  · intro chatSummarize max_history messages hinv
    unfold maybe_compact
    by_cases hc : should_compact_history max_history messages = true
    · rw [if_pos hc]
      cases messages with
      | nil => simp [sysInvB] at hinv
      | cons m rest =>
        unfold sysInvB at hinv
        rcases Bool.and_eq_true_iff.mp hinv with ⟨hrole, hall⟩
        have hls : hasLeadingSystem (m :: rest) = true := hrole
        have hstart : systemStart (m :: rest) = 1 := by
          unfold systemStart
          rw [hls]
          rfl
        rcases compact_history_cases chatSummarize (m :: rest) with heq | ⟨s, heq⟩
        · rw [heq]
          exact ⟨Bool.and_eq_true_iff.mpr ⟨hrole, hall⟩, rfl⟩
        · rw [heq, hstart]
          have hshape : (m :: rest).take 1 ++ [ChatMessage.assistant s] ++
              (m :: rest).drop (1 + (nonSystemCount (m :: rest) -
                min COMPACT_KEEP_RECENT (nonSystemCount (m :: rest)))) =
              m :: ChatMessage.assistant s :: rest.drop (nonSystemCount (m :: rest) -
                min COMPACT_KEEP_RECENT (nonSystemCount (m :: rest))) := by
            rw [Nat.add_comm 1 _]
            simp [List.take_cons, List.drop_succ_cons]
          rw [hshape]
          constructor
          · unfold sysInvB
            refine Bool.and_eq_true_iff.mpr ⟨hrole, ?_⟩
            rw [List.all_cons]
            refine Bool.and_eq_true_iff.mpr ⟨rfl, ?_⟩
            exact all_drop_of_all rest _ _ hall
          · rfl
    · rw [if_neg hc]
      exact ⟨hinv, rfl⟩

/-- Witness for C8: a concrete system-free history yields the invariant, the
three appends preserve it, and compaction over 51 messages keeps the leading
system message in place. -/
theorem C8_system_invariant_witness :
    sysInvB (build_messages promptEnv0 [ChatMessage.user "h"] "hi") = true ∧
    sysInvB ([ChatMessage.system "s"] ++ [ChatMessage.assistant "a"]) = true ∧
    sysInvB ([ChatMessage.system "s"] ++
      [ChatMessage.assistant_with_tool_calls "a" [tcA]]) = true ∧
    sysInvB ([ChatMessage.system "s"] ++ [ChatMessage.tool_result "id1" "r"]) = true ∧
    sysInvB (maybe_compact noSummarize DEFAULT_MAX_HISTORY
      (ChatMessage.system "s" :: List.replicate 51 (ChatMessage.user "u"))) = true ∧
    (maybe_compact noSummarize DEFAULT_MAX_HISTORY
      (ChatMessage.system "s" :: List.replicate 51 (ChatMessage.user "u"))).head? =
      some (ChatMessage.system "s") := by
  refine ⟨?_, ?_, ?_, ?_, ?_, ?_⟩
  · exact C8_system_invariant.1 promptEnv0 [ChatMessage.user "h"] "hi" (by decide)
  · exact C8_system_invariant.2.1 [ChatMessage.system "s"] "a" (by decide)
  · exact C8_system_invariant.2.2.1 [ChatMessage.system "s"] "a" [tcA] (by decide)
  · exact C8_system_invariant.2.2.2.1 [ChatMessage.system "s"] "id1" "r" (by decide)
  · exact (C8_system_invariant.2.2.2.2 noSummarize DEFAULT_MAX_HISTORY
      (ChatMessage.system "s" :: List.replicate 51 (ChatMessage.user "u")) (by decide)).1
  · exact (C8_system_invariant.2.2.2.2 noSummarize DEFAULT_MAX_HISTORY
      (ChatMessage.system "s" :: List.replicate 51 (ChatMessage.user "u")) (by decide)).2

theorem get_mapReplace (t : Tool) :
    ∀ (reg : ToolRegistry), reg.any (fun p => p.1 == t.name) = true →
      ToolRegistry.get (reg.map (fun p => if p.1 == t.name then (p.1, t) else p)) t.name =
        some t := by
  intro reg
  induction reg with
  | nil => intro h; simp at h
  | cons p rest ih =>
    intro h
    rw [List.map_cons]
    by_cases hp : (p.1 == t.name) = true
    · unfold ToolRegistry.get
      rw [if_pos hp]
      simp only [List.find?, hp]
      rfl
    · have hpf : (p.1 == t.name) = false := Bool.eq_false_iff.mpr hp
      unfold ToolRegistry.get
      rw [if_neg hp]
      simp only [List.find?, hpf]
      have hrest : rest.any (fun p => p.1 == t.name) = true := by
        rw [List.any_cons] at h
        rcases Bool.or_eq_true_iff.mp h with h1 | h2
        · exact absurd h1 hp
        · exact h2
      have hres := ih hrest
      unfold ToolRegistry.get at hres
      exact hres

theorem get_append_single (t : Tool) :
    ∀ (reg : ToolRegistry), reg.any (fun p => p.1 == t.name) = false →
      ToolRegistry.get (reg ++ [(t.name, t)]) t.name = some t := by
  intro reg
  induction reg with
  | nil =>
    intro _
    unfold ToolRegistry.get
    rw [List.nil_append]
    have hself : (t.name == t.name) = true := by simp
    simp only [List.find?, hself]
    rfl
  | cons p rest ih =>
    intro h
    rw [List.any_cons, Bool.or_eq_false_iff] at h
    rw [List.cons_append]
    unfold ToolRegistry.get
    simp only [List.find?, h.1]
    have hres := ih h.2
    unfold ToolRegistry.get at hres
    exact hres

theorem get_register_self (reg : ToolRegistry) (t : Tool) :
    ToolRegistry.get (ToolRegistry.register reg t) t.name = some t := by
  unfold ToolRegistry.register
  by_cases hany : (reg.any (fun p => p.1 == t.name)) = true
  · rw [if_pos hany]
    exact get_mapReplace t reg hany
  · rw [if_neg hany]
    exact get_append_single t reg (Bool.eq_false_iff.mpr (fun hx => hany hx))

/-- Claim C9: duplicate registration resolves last-wins: after registering two
tools with the same name the registry resolves that name to the second tool
for `get`, `get_specs` and `execute`; `register` is total (it never rejects a
duplicate), and it preserves the at-most-one-binding-per-name invariant. -/
theorem C9_register_last_wins :
    (∀ (reg : ToolRegistry) (t1 t2 : Tool) (name : String),
      t1.name = name → t2.name = name →
      ToolRegistry.get (ToolRegistry.register (ToolRegistry.register reg t1) t2) name =
        some t2 ∧
      t2.spec ∈
        ToolRegistry.get_specs (ToolRegistry.register (ToolRegistry.register reg t1) t2) ∧
      ∀ args,
        ToolRegistry.execute (ToolRegistry.register (ToolRegistry.register reg t1) t2)
            name args =
          (match t2.execute args with
           | Except.ok r => r
           | Except.error e => ToolResult.mkError ("Execution failed: " ++ e))) ∧
    (∀ (reg : ToolRegistry) (t : Tool),
      (reg.map (fun p => p.1)).Nodup →
      ((ToolRegistry.register reg t).map (fun p => p.1)).Nodup) := by
  constructor
  · intro reg t1 t2 name h1 h2
    subst h2
    have hget : ToolRegistry.get
        (ToolRegistry.register (ToolRegistry.register reg t1) t2) t2.name = some t2 :=
      get_register_self (ToolRegistry.register reg t1) t2
    refine ⟨hget, ?_, ?_⟩
    · unfold ToolRegistry.get at hget
      rcases Option.map_eq_some'.mp hget with ⟨pr, hfind, hpr⟩
      have hmem := List.mem_of_find?_eq_some hfind
      unfold ToolRegistry.get_specs
      have hs : pr.2.spec ∈ (ToolRegistry.register (ToolRegistry.register reg t1) t2).map
          (fun p => p.2.spec) := List.mem_map_of_mem (fun p => p.2.spec) hmem
      rw [hpr] at hs
      exact hs
    · intro args
      unfold ToolRegistry.execute
      rw [hget]
  · intro reg t hnodup
    unfold ToolRegistry.register
    by_cases hany : (reg.any (fun p => p.1 == t.name)) = true
    · rw [if_pos hany]
      have hkeys : ∀ (l : ToolRegistry),
          (l.map (fun p => if p.1 == t.name then (p.1, t) else p)).map (fun p => p.1) =
            l.map (fun p => p.1) := by
        intro l
        induction l with
        | nil => rfl
        | cons p rest ih =>
          simp only [List.map_cons, ih]
          congr 1
          split <;> rfl
      rw [hkeys]
      exact hnodup
    · rw [if_neg hany]
      rw [List.map_append]
      rw [List.nodup_append]
      refine ⟨hnodup, List.nodup_singleton _, ?_⟩
      have hanyf : (reg.any (fun p => p.1 == t.name)) = false :=
        Bool.eq_false_iff.mpr (fun hx => hany hx)
      have hnot : ∀ p ∈ reg, ¬ (p.1 == t.name) = true := by
        rw [← List.any_eq_false]
        exact hanyf
      rw [show (([(t.name, t)] : ToolRegistry).map (fun p => p.1)) = [t.name] from rfl]
      rw [List.disjoint_singleton]
      intro hmem
      rcases List.mem_map.mp hmem with ⟨p, hp, hpeq⟩
      exact hnot p hp (by rw [hpeq]; simp)

/-- Witness for C9: registering `toolW1` then `toolW2` (both named `shell`)
into the empty registry resolves `shell` to `toolW2` everywhere, and key
nodup is preserved. -/
theorem C9_register_last_wins_witness :
    ToolRegistry.get (ToolRegistry.register (ToolRegistry.register [] toolW1) toolW2)
      "shell" = some toolW2 ∧
    toolW2.spec ∈
      ToolRegistry.get_specs (ToolRegistry.register (ToolRegistry.register [] toolW1) toolW2) ∧
    ToolRegistry.execute (ToolRegistry.register (ToolRegistry.register [] toolW1) toolW2)
      "shell" Json.null = ToolResult.mkSuccess "two" ∧
    ((ToolRegistry.register [] toolW1).map (fun p => p.1)).Nodup := by
  have h := C9_register_last_wins.1 [] toolW1 toolW2 "shell" rfl rfl
  refine ⟨h.1, h.2.1, ?_, ?_⟩
  · have h3 := h.2.2 Json.null
    rw [h3]
    rfl
  · exact C9_register_last_wins.2 [] toolW1 (by simp)

/-- Claim C10: code bug.  For a thinking string of 199 ASCII characters
followed by `€` (202 bytes), the streaming thinking-only branch slices the
string at byte 200, which falls inside the three-byte `€`; Rust
`&thinking_content[..200]` panics on the non-boundary index instead of
returning the incomplete-response message (the panic is modelled as `none`). -/
theorem C10_thinking_slice_panics :
    200 < utf8Len ((List.replicate 199 'a').asString ++ "€") ∧
    incomplete_stream_response ((List.replicate 199 'a').asString ++ "€") = none := by
  exact ⟨by set_option maxRecDepth 4000 in decide, by set_option maxRecDepth 4000 in decide⟩

end Dinoe
